import Mathlib

/-
Verification of the Lanczos eigensolver engine in lanczos.cu.

The embedding models IEEE doubles as real numbers and the cuDoubleComplex
struct of cuComplex.h as a pair of reals.  The cuBLAS/cuSPARSE collaborators
(dot product, axpy, Euclidean norm, sparse matrix-vector product) are not part
of the repository; they are modelled from their documented contracts, which the
spec also states in its External Interfaces section.  The tqli tridiagonal
eigensolver lives in a separate file that is not part of src/ either (only its
declaration and call sites are); the loop embedding is therefore parametric in
the tqli function, and a spec-modelled instance is provided for the calls whose
offdiagonal input is entirely zero.
-/

namespace SpinGPU

set_option maxHeartbeats 3000000

noncomputable section

/-- Model of cuDoubleComplex from cuComplex.h: field x is the real part and
field y is the imaginary part, as the source comments explain. -/
@[ext] structure CuC where
  x : ℝ
  y : ℝ

/-- Model of make_cuDoubleComplex. -/
def mkC (a b : ℝ) : CuC := ⟨a, b⟩

/-- The complex zero make_cuDoubleComplex(0., 0.). -/
def czero : CuC := ⟨0, 0⟩

/-- Model of cuConj. -/
def cuConj (z : CuC) : CuC := ⟨z.x, -z.y⟩

/-- Model of cuCadd. -/
def cuCadd (a b : CuC) : CuC := ⟨a.x + b.x, a.y + b.y⟩

/-- Model of cuCsub. -/
def cuCsub (a b : CuC) : CuC := ⟨a.x - b.x, a.y - b.y⟩

/-- Model of cuCmul. -/
def cuCmul (a b : CuC) : CuC := ⟨a.x * b.x - a.y * b.y, a.x * b.y + a.y * b.x⟩

/-- Model of cuCdiv from cuComplex.h, which uses Smith's scaled formula; in
exact real arithmetic it equals ordinary complex division for a nonzero
denominator (with the Lean convention 1/0 = 0 it returns 0 on denominator 0). -/
def cuCdiv (a b : CuC) : CuC :=
  let s := |b.x| + |b.y|
  let oos := 1 / s
  let ars := a.x * oos
  let ais := a.y * oos
  let brs := b.x * oos
  let bis := b.y * oos
  let s2 := brs * brs + bis * bis
  let oos2 := 1 / s2
  ⟨(ars * brs + ais * bis) * oos2, (ais * brs - ars * bis) * oos2⟩

/-- Device vectors of cuDoubleComplex are modelled as lists. -/
abbrev Vec := List CuC

/-- Modelled from the spec: cublasZdotc contract, the conjugate-linear dot
product sum of conj(x_i) * y_i (the implementation is in cuBLAS, outside the
repository). -/
def zdotc (xs ys : Vec) : CuC :=
  (List.zipWith (fun a b => cuCmul (cuConj a) b) xs ys).foldr cuCadd czero

/-- Modelled from the spec: cublasZaxpy contract, the in-place update
y <- a*x + y performed componentwise (implementation in cuBLAS, outside the
repository). -/
def zaxpy (a : CuC) (xs ys : Vec) : Vec :=
  List.zipWith (fun xi yi => cuCadd (cuCmul a xi) yi) xs ys

/-- Modelled from the spec: cublasDznrm2 contract, the Euclidean norm
sqrt(sum of squared moduli) of a complex vector (implementation in cuBLAS,
outside the repository). -/
def dznrm2 (xs : Vec) : ℝ :=
  Real.sqrt ((xs.map fun z => z.x ^ 2 + z.y ^ 2).sum)

/-- Modelled from the spec: the sparse operator apply contract y = H*x (the
cusparseZcsrmv implementation is outside the repository).  The operator is a
list of (row, column, value) entries; a column index outside the vector reads
zero, a deterministic stand-in for the out-of-range access the real library
would perform. -/
def matvec (H : List (ℕ × ℕ × CuC)) (dim : ℕ) (xs : Vec) : Vec :=
  (List.range dim).map fun i =>
    H.foldr
      (fun t acc =>
        if t.1 = i then cuCadd (cuCmul t.2.2 (xs.getD t.2.1 czero)) acc else acc)
      czero

/-- Model of the vecdiff kernel of the older Lanczos variant, exactly as its
body computes it: w[i] = cuCsub(x[i], cuCsub(cuCmul(alpha, y[i]),
cuCmul(beta, z[i]))). -/
def vecdiff (xs : Vec) (alpha : CuC) (ys : Vec) (beta : CuC) (zs : Vec) : Vec :=
  List.zipWith
    (fun xi (p : CuC × CuC) => cuCsub xi (cuCsub (cuCmul alpha p.1) (cuCmul beta p.2)))
    xs (List.zip ys zs)

/-- The formula the vecdiff header comment documents: w = x - a*y - b*z,
written for comparison with the kernel body. -/
def vecdiffStated (xs : Vec) (alpha : CuC) (ys : Vec) (beta : CuC) (zs : Vec) : Vec :=
  List.zipWith
    (fun xi (p : CuC × CuC) => cuCsub (cuCsub xi (cuCmul alpha p.1)) (cuCmul beta p.2))
    xs (List.zip ys zs)

/-- Resize of a thrust device or host vector: the existing elements are kept
and any new slots are value-initialized with the given fill. -/
def resizeList {α : Type} (l : List α) (n : ℕ) (fill : α) : List α :=
  if n ≤ l.length then l.take n else l ++ List.replicate (n - l.length) fill

/-- Writing a dim-sized vector into slot number slot of the flat Lanczos-vector
store, as the cudaMemcpy to lancz_ptr = raw pointer of d_lanczvec[dim*(iter-1)]
does. -/
def writeSlot (store : Vec) (dim slot : ℕ) (v : Vec) : Vec :=
  store.take (dim * slot) ++ v ++ store.drop (dim * slot + dim)

/-- Reading slot number slot back out of the flat Lanczos-vector store. -/
def readSlot (store : Vec) (dim slot : ℕ) : Vec :=
  (store.drop (dim * slot)).take dim

/-- The variables of the lanczos routine that live across loop rounds.
h_diag and h_offdia always mirror d_diag and d_offdia at the points where they
are read, so one logical copy of each array is kept. -/
structure LState where
  iter : ℕ
  maxIter : ℕ
  v0 : Vec
  v1 : Vec
  d_a : List CuC
  d_b : List CuC
  d_diag : List ℝ
  d_offdia : List ℝ
  d_ordered : List ℝ
  orderedPtrIdx : ℕ
  gs_Energy : ℝ
  eigtemp : ℝ
  y : Vec
  lanczvec : Vec

/-- The pre-loop phase of lanczos (lines 164-341 of lanczos.cu): build the
all-ones starting vector, v1 = H*v0, a_0 = conj(v1).v0, subtract a_0*v0 from
v1, set b_1 = sqrt(Dznrm2(v1)), accumulate (1/b_1)*v1 into the scratch vector
y, and zero-fill d_ordered, d_diag, d_offdia and the Lanczos-vector store. -/
def lanczosInit (H : List (ℕ × ℕ × CuC)) (dim maxIter numEig : ℕ) : LState :=
  let v0 : Vec := List.replicate dim (mkC 1 0)
  let v1 := matvec H dim v0
  let dottemp := zdotc v1 v0
  let d_a := (List.replicate maxIter czero).set 0 dottemp
  let d_b0 := (List.replicate maxIter czero).set 0 czero
  let v1b := zaxpy (cuCmul (mkC (-1) 0) dottemp) v0 v1
  let d_b := d_b0.set 1 (mkC (Real.sqrt (dznrm2 v1b)) 0)
  let y := zaxpy (mkC (1 / (d_b.getD 1 czero).x) 0) v1b (List.replicate dim czero)
  { iter := 0
    maxIter := maxIter
    v0 := v0
    v1 := v1b
    d_a := d_a
    d_b := d_b
    d_diag := List.replicate maxIter 0
    d_offdia := List.replicate maxIter 0
    d_ordered := List.replicate numEig 0
    orderedPtrIdx := 0
    gs_Energy := 1
    eigtemp := 0
    y := y
    lanczvec := List.replicate (dim * maxIter) czero }

/-- First half of one round of the outer while loop (lines 344-415 of
lanczos.cu), up to and including the d_diag and d_offdia writes: increment
iter, refresh eigtemp from the d_ordered pointer, v2 = H*v1,
d_a[iter] = conj(v1).v2, temp = (d_b[iter]/d_a[iter])*v0 + v1,
v2 = d_a[iter]*temp + v2, d_b[iter+1] = sqrt(Dznrm2(v2)),
y = (1/Re d_b[iter+1])*v2 + y, store the old v0 into Lanczos-vector slot
iter-1, shift v0 <- v1 <- v2, and record the real parts in d_diag[iter] and
d_offdia[iter+1]. -/
def stepA (H : List (ℕ × ℕ × CuC)) (dim : ℕ) (s : LState) : LState :=
  let iter := s.iter + 1
  let eigtemp := s.d_ordered.getD s.orderedPtrIdx 0
  let v2 := matvec H dim s.v1
  let dottemp := zdotc s.v1 v2
  let d_a := s.d_a.set iter dottemp
  let axpy1 := cuCdiv (s.d_b.getD iter czero) (d_a.getD iter czero)
  let temp := zaxpy axpy1 s.v0 s.v1
  let v2b := zaxpy (d_a.getD iter czero) temp v2
  let d_b := s.d_b.set (iter + 1) (mkC (Real.sqrt (dznrm2 v2b)) 0)
  let gamma := mkC (1 / (d_b.getD (iter + 1) czero).x) 0
  let y := zaxpy gamma v2b s.y
  { iter := iter
    maxIter := s.maxIter
    v0 := s.v1
    v1 := v2b
    d_a := d_a
    d_b := d_b
    d_diag := s.d_diag.set iter (d_a.getD iter czero).x
    d_offdia := s.d_offdia.set (iter + 1) (d_b.getD (iter + 1) czero).x
    d_ordered := s.d_ordered
    orderedPtrIdx := s.orderedPtrIdx
    gs_Energy := s.gs_Energy
    eigtemp := eigtemp
    y := y
    lanczvec := writeSlot s.lanczvec dim (iter - 1) s.v0 }

/-- The take of the ascending sort of the whole diagonal buffer, exactly the
thrust::sort plus thrust::copy pair of lines 437-438 of lanczos.cu. -/
def kSmallest (buf : List ℝ) (k : ℕ) : List ℝ :=
  (List.insertionSort (fun a b => a ≤ b) buf).take k

/-- The buffer growth of lines 447-457 of lanczos.cu: when the int comparison
iter == max_Iter - 1 holds, every coefficient and diagonal buffer is resized to
2*max_Iter, the Lanczos-vector store to 2*max_Iter*dim, and max_Iter doubles. -/
def maybeResize (dim : ℕ) (s : LState) : LState :=
  if (s.iter : ℤ) = (s.maxIter : ℤ) - 1 then
    { s with
      d_a := resizeList s.d_a (2 * s.maxIter) czero
      d_b := resizeList s.d_b (2 * s.maxIter) czero
      d_diag := resizeList s.d_diag (2 * s.maxIter) 0
      d_offdia := resizeList s.d_offdia (2 * s.maxIter) 0
      lanczvec := resizeList s.lanczvec (2 * s.maxIter * dim) czero
      maxIter := 2 * s.maxIter }
  else s

/-- Second half of one round (lines 417-458 of lanczos.cu): hand the diagonal
and offdiagonal buffers and the size iter+1 to tqli (whose eigenvector output
matrix is written but never read afterwards), copy the result back, sort the
entire diagonal buffer ascending, copy its first num_Eig entries into
d_ordered, refresh gs_Energy from d_ordered[num_Eig-1], repoint the d_ordered
pointer at index num_Eig-1, and grow the buffers if the resize test fires. -/
def stepB (tq : List ℝ → List ℝ → ℕ → List ℝ) (dim numEig : ℕ) (s : LState) :
    LState :=
  let dpost := tq s.d_diag s.d_offdia (s.iter + 1)
  let sorted := List.insertionSort (fun a b => a ≤ b) dpost
  let dOrd := kSmallest dpost numEig ++ s.d_ordered.drop numEig
  maybeResize dim
    { s with
      d_diag := sorted
      d_ordered := dOrd
      gs_Energy := dOrd.getD (numEig - 1) 0
      orderedPtrIdx := numEig - 1 }

/-- One full round of the outer while loop. -/
def lanczosStep (tq : List ℝ → List ℝ → ℕ → List ℝ) (H : List (ℕ × ℕ × CuC))
    (dim numEig : ℕ) (s : LState) : LState :=
  stepB tq dim numEig (stepA H dim s)

/-- The outer while loop of lanczos.cu with explicit fuel: while
fabs(gs_Energy - eigtemp) > conv_req, run one more round. -/
def lanczosLoop (tq : List ℝ → List ℝ → ℕ → List ℝ) (H : List (ℕ × ℕ × CuC))
    (dim numEig : ℕ) (conv : ℝ) : ℕ → LState → LState
  | 0, s => s
  | fuel + 1, s =>
      if |s.gs_Energy - s.eigtemp| > conv then
        lanczosLoop tq H dim numEig conv fuel (lanczosStep tq H dim numEig s)
      else s

/-- Modelled from the spec: the tqli implementation is in a separate file that
is not part of src/ (only its declaration and call sites are).  Per the spec
contract it overwrites d[0..n-1] with the eigenvalues of the tridiagonal matrix
with diagonal d[0..n-1] and offdiagonal e[1..n-1].  When every offdiagonal
entry read is zero the matrix is already diagonal, the machine-epsilon deflation
test splits off every index at once and no rotation is applied, so d is
returned unchanged; this model returns d unchanged and is only ever evaluated
at calls whose offdiagonal input is zero, where that is the exact spec
behaviour. -/
def tqliModel (d : List ℝ) (_e : List ℝ) (_n : ℕ) : List ℝ := d

/-- Characteristic determinant det(T - lam*I) of a symmetric tridiagonal
matrix by the standard three-term recurrence, folded over pairs of a diagonal
entry and the offdiagonal coupling to the previous row. -/
def tridiagDetGo (lam : ℝ) : List (ℝ × ℝ) → ℝ × ℝ → ℝ
  | [], acc => acc.1
  | de :: rest, acc =>
      tridiagDetGo lam rest ((de.1 - lam) * acc.1 - de.2 ^ 2 * acc.2, acc.1)

/-- Characteristic determinant of the tridiagonal matrix with diagonal d and
offdiagonal couplings e[1..n-1] (index 0 of e is the zero sentinel the spec
describes). -/
def tridiagDet (lam : ℝ) (d e : List ℝ) : ℝ :=
  tridiagDetGo lam (d.zip (0 :: e.drop 1)) (1, 0)

/-- The residual vector one loop round computes before the norm is taken,
exactly as lines 352-383 of lanczos.cu produce it from the current state:
w = d_a[iter]*((d_b[iter]/d_a[iter])*v0 + v1) + H*v1. -/
def residualVec (H : List (ℕ × ℕ × CuC)) (dim : ℕ) (s : LState) : Vec :=
  let v2 := matvec H dim s.v1
  let a := zdotc s.v1 v2
  zaxpy a (zaxpy (cuCdiv (s.d_b.getD (s.iter + 1) czero) a) s.v0 s.v1) v2

/-- The residual the spec prescribes for the same round, following the words
of spec step 3: w = H*v_i - alpha_i*v_i - beta_i*v_car, with v_car the previous
basis vector; written only for comparison with residualVec. -/
def specResidualVec (H : List (ℕ × ℕ × CuC)) (dim : ℕ) (s : LState) : Vec :=
  let v2 := matvec H dim s.v1
  let a := zdotc s.v1 v2
  let b := s.d_b.getD (s.iter + 1) czero
  List.zipWith
    (fun wi (p : CuC × CuC) => cuCsub (cuCsub wi (cuCmul a p.1)) (cuCmul b p.2))
    v2 (List.zip s.v1 s.v0)

/-- The state with the scratch vector y blanked out, used to express that no
other part of the state ever reads y. -/
def stripY (s : LState) : LState := { s with y := [] }

/-- The 1x1 operator with single entry 8, a snapshot input for the norm and
normalization claims. -/
def H8 : List (ℕ × ℕ × CuC) := [(0, 0, mkC 8 0)]

/-- The 1x1 operator with single entry 2, a snapshot input for the residual
sign claim. -/
def H2 : List (ℕ × ℕ × CuC) := [(0, 0, mkC 2 0)]

/-- The zero operator on dimension 1 (no stored entries): the all-ones
starting vector is an exact eigenvector of it, so beta_1 is exactly zero. -/
def HZero : List (ℕ × ℕ × CuC) := []

/-- Sparse data whose column index 5 lies outside dimension 1: the operator
data describes a larger matrix than the supplied dimension and vector length. -/
def HBad : List (ℕ × ℕ × CuC) := [(0, 5, mkC 1 0)]

/-- Minus six times the identity on dimension 2, the operator driving the
two-round trace used for the diagonal-slot claim. -/
def HNeg : List (ℕ × ℕ × CuC) := [(0, 0, mkC (-6) 0), (1, 1, mkC (-6) 0)]

/-- A mid-run snapshot just before a loop round on dimension 1: v0 = 0,
v1 = e_1, beta_1 = 1, capacity 4.  Entering stepA with H8 gives the residual
w = [16]. -/
def sNorm : LState :=
  { iter := 0
    maxIter := 4
    v0 := [czero]
    v1 := [mkC 1 0]
    d_a := [czero, czero, czero, czero]
    d_b := [czero, mkC 1 0, czero, czero]
    d_diag := [0, 0, 0, 0]
    d_offdia := [0, 0, 0, 0]
    d_ordered := [0]
    orderedPtrIdx := 0
    gs_Energy := 1
    eigtemp := 0
    y := [czero]
    lanczvec := [czero, czero, czero, czero] }

/-- A mid-run snapshot on dimension 1 with v0 = v1 = e_1 and beta_1 = 3;
entering stepA with H2, the source update yields w = [7] while the spec
recurrence yields [-3]. -/
def s2 : LState :=
  { iter := 0
    maxIter := 4
    v0 := [mkC 1 0]
    v1 := [mkC 1 0]
    d_a := [czero, czero, czero, czero]
    d_b := [czero, mkC 3 0, czero, czero]
    d_diag := [0, 0, 0, 0]
    d_offdia := [0, 0, 0, 0]
    d_ordered := [0]
    orderedPtrIdx := 0
    gs_Energy := 1
    eigtemp := 0
    y := [czero]
    lanczvec := [czero, czero, czero, czero] }

/-- A snapshot after the stepA half of round iter = 1 with capacity 4: the
current projection has diagonal [3, 5] in slots 0..1 and zero offdiagonal, and
slots 2..3 of the diagonal buffer are unused fill. -/
def sFill : LState :=
  { iter := 1
    maxIter := 4
    v0 := []
    v1 := []
    d_a := [mkC 3 0, mkC 5 0, czero, czero]
    d_b := [czero, czero, czero, czero]
    d_diag := [3, 5, 0, 0]
    d_offdia := [0, 0, 0, 0]
    d_ordered := [0, 0]
    orderedPtrIdx := 0
    gs_Energy := 1
    eigtemp := 0
    y := []
    lanczvec := [] }

/-- A concrete state at iteration 2 of capacity 4, two short of the capacity:
the claimed resize trigger point. -/
def sCap : LState :=
  { iter := 2
    maxIter := 4
    v0 := []
    v1 := []
    d_a := [czero, czero, czero, czero]
    d_b := [czero, czero, czero, czero]
    d_diag := [0, 0, 0, 0]
    d_offdia := [0, 0, 0, 0]
    d_ordered := [0]
    orderedPtrIdx := 0
    gs_Energy := 1
    eigtemp := 0
    y := []
    lanczvec := [czero, czero, czero, czero] }

/-- The same state one iteration later, at iter = capacity - 1, where the
source actually resizes. -/
def sCap3 : LState :=
  { sCap with iter := 3 }

/-- A concrete filled state of capacity 2 on dimension 1, at the resize
trigger, used to witness that growth keeps every stored element. -/
def sGrow : LState :=
  { iter := 1
    maxIter := 2
    v0 := []
    v1 := []
    d_a := [mkC 1 0, mkC 2 0]
    d_b := [mkC 3 0, mkC 4 0]
    d_diag := [5, 6]
    d_offdia := [7, 8]
    d_ordered := [0]
    orderedPtrIdx := 0
    gs_Energy := 1
    eigtemp := 0
    y := []
    lanczvec := [mkC 9 0, mkC 10 0] }

/-- The state after the pre-loop phase for the minus-six operator trace. -/
def s9a : LState := lanczosInit HNeg 2 4 1

/-- The state after the first full loop round of the minus-six operator
trace. -/
def s9b : LState := lanczosStep tqliModel HNeg 2 1 s9a

end

/-! Helper lemmas about list primitives and about projections of the machine
states.  The projection equalities are definitional and let later proofs
evaluate one field of a state without normalizing the others. -/

theorem setGetD_other {α : Type} (l : List α) (i j : ℕ) (a d : α) (h : i ≠ j) :
    (l.set i a).getD j d = l.getD j d := by
  induction l generalizing i j with
  | nil => simp
  | cons b t ih =>
    cases i with
    | zero =>
      cases j with
      | zero => exact absurd rfl h
      | succ j => simp
    | succ i =>
      cases j with
      | zero => simp
      | succ j => simpa using ih i j (by omega)

theorem setGetD_same {α : Type} (l : List α) (i : ℕ) (a d : α) (h : i < l.length) :
    (l.set i a).getD i d = a := by
  induction l generalizing i with
  | nil => simp at h
  | cons b t ih =>
    cases i with
    | zero => simp
    | succ i => simpa using ih i (by simpa using h)

theorem resizeList_length {α : Type} (l : List α) (n : ℕ) (f : α) :
    (resizeList l n f).length = n := by
  unfold resizeList
  split
  · simp only [List.length_take]
    omega
  · simp only [List.length_append, List.length_replicate]
    omega

theorem resizeList_keep {α : Type} (l : List α) (n : ℕ) (f : α) (h : l.length ≤ n) :
    (resizeList l n f).take l.length = l := by
  unfold resizeList
  split
  · have hn : n = l.length := le_antisymm (by assumption) h
    subst hn
    simp
  · simp [List.take_left]

theorem maybeResize_id (dim : ℕ) (s : LState)
    (h : (s.iter : ℤ) ≠ (s.maxIter : ℤ) - 1) : maybeResize dim s = s := by
  unfold maybeResize
  rw [if_neg h]

theorem maybeResize_grow (dim : ℕ) (s : LState)
    (h : (s.iter : ℤ) = (s.maxIter : ℤ) - 1) :
    maybeResize dim s =
      { s with
        d_a := resizeList s.d_a (2 * s.maxIter) czero
        d_b := resizeList s.d_b (2 * s.maxIter) czero
        d_diag := resizeList s.d_diag (2 * s.maxIter) 0
        d_offdia := resizeList s.d_offdia (2 * s.maxIter) 0
        lanczvec := resizeList s.lanczvec (2 * s.maxIter * dim) czero
        maxIter := 2 * s.maxIter } := by
  unfold maybeResize
  rw [if_pos h]

theorem lanczosInit_iter (H : List (ℕ × ℕ × CuC)) (dim M k : ℕ) :
    (lanczosInit H dim M k).iter = 0 := rfl

theorem lanczosInit_maxIter (H : List (ℕ × ℕ × CuC)) (dim M k : ℕ) :
    (lanczosInit H dim M k).maxIter = M := rfl

theorem lanczosInit_gs (H : List (ℕ × ℕ × CuC)) (dim M k : ℕ) :
    (lanczosInit H dim M k).gs_Energy = 1 := rfl

theorem lanczosInit_eigtemp (H : List (ℕ × ℕ × CuC)) (dim M k : ℕ) :
    (lanczosInit H dim M k).eigtemp = 0 := rfl

theorem lanczosInit_d_ordered (H : List (ℕ × ℕ × CuC)) (dim M k : ℕ) :
    (lanczosInit H dim M k).d_ordered = List.replicate k 0 := rfl

theorem lanczosInit_ptr (H : List (ℕ × ℕ × CuC)) (dim M k : ℕ) :
    (lanczosInit H dim M k).orderedPtrIdx = 0 := rfl

theorem lanczosInit_d_diag (H : List (ℕ × ℕ × CuC)) (dim M k : ℕ) :
    (lanczosInit H dim M k).d_diag = List.replicate M 0 := rfl

theorem lanczosInit_d_a (H : List (ℕ × ℕ × CuC)) (dim M k : ℕ) :
    (lanczosInit H dim M k).d_a =
      (List.replicate M czero).set 0
        (zdotc (matvec H dim (List.replicate dim (mkC 1 0)))
          (List.replicate dim (mkC 1 0))) := rfl

theorem lanczosInit_v1 (H : List (ℕ × ℕ × CuC)) (dim M k : ℕ) :
    (lanczosInit H dim M k).v1 =
      zaxpy
        (cuCmul (mkC (-1) 0)
          (zdotc (matvec H dim (List.replicate dim (mkC 1 0)))
            (List.replicate dim (mkC 1 0))))
        (List.replicate dim (mkC 1 0))
        (matvec H dim (List.replicate dim (mkC 1 0))) := rfl

theorem stepA_iter (H : List (ℕ × ℕ × CuC)) (dim : ℕ) (s : LState) :
    (stepA H dim s).iter = s.iter + 1 := rfl

theorem stepA_maxIter (H : List (ℕ × ℕ × CuC)) (dim : ℕ) (s : LState) :
    (stepA H dim s).maxIter = s.maxIter := rfl

theorem stepA_eigtemp (H : List (ℕ × ℕ × CuC)) (dim : ℕ) (s : LState) :
    (stepA H dim s).eigtemp = s.d_ordered.getD s.orderedPtrIdx 0 := rfl

theorem stepA_d_ordered (H : List (ℕ × ℕ × CuC)) (dim : ℕ) (s : LState) :
    (stepA H dim s).d_ordered = s.d_ordered := rfl

theorem stepA_d_diag (H : List (ℕ × ℕ × CuC)) (dim : ℕ) (s : LState) :
    (stepA H dim s).d_diag =
      s.d_diag.set (s.iter + 1)
        (((s.d_a.set (s.iter + 1) (zdotc s.v1 (matvec H dim s.v1))).getD
            (s.iter + 1) czero).x) := rfl

theorem stepA_v1 (H : List (ℕ × ℕ × CuC)) (dim : ℕ) (s : LState) :
    (stepA H dim s).v1 =
      zaxpy
        ((s.d_a.set (s.iter + 1) (zdotc s.v1 (matvec H dim s.v1))).getD
          (s.iter + 1) czero)
        (zaxpy
          (cuCdiv (s.d_b.getD (s.iter + 1) czero)
            ((s.d_a.set (s.iter + 1) (zdotc s.v1 (matvec H dim s.v1))).getD
              (s.iter + 1) czero))
          s.v0 s.v1)
        (matvec H dim s.v1) := rfl

theorem stepA_y (H : List (ℕ × ℕ × CuC)) (dim : ℕ) (s : LState) :
    (stepA H dim s).y =
      zaxpy
        (mkC
          (1 /
            ((s.d_b.set (s.iter + 2)
                  (mkC (Real.sqrt (dznrm2 ((stepA H dim s).v1))) 0)).getD
                (s.iter + 2) czero).x)
          0)
        ((stepA H dim s).v1) s.y := rfl

theorem stepA_lanczvec (H : List (ℕ × ℕ × CuC)) (dim : ℕ) (s : LState) :
    (stepA H dim s).lanczvec = writeSlot s.lanczvec dim s.iter s.v0 := rfl

theorem stepB_eq_of_no_resize (tq : List ℝ → List ℝ → ℕ → List ℝ)
    (dim k : ℕ) (s : LState) (h : (s.iter : ℤ) ≠ (s.maxIter : ℤ) - 1) :
    stepB tq dim k s =
      { s with
        d_diag := List.insertionSort (fun a b => a ≤ b)
          (tq s.d_diag s.d_offdia (s.iter + 1))
        d_ordered := kSmallest (tq s.d_diag s.d_offdia (s.iter + 1)) k ++
          s.d_ordered.drop k
        gs_Energy := (kSmallest (tq s.d_diag s.d_offdia (s.iter + 1)) k ++
          s.d_ordered.drop k).getD (k - 1) 0
        orderedPtrIdx := k - 1 } := by
  unfold stepB
  exact maybeResize_id _ _ h

theorem lanczosStep_iter (tq : List ℝ → List ℝ → ℕ → List ℝ)
    (H : List (ℕ × ℕ × CuC)) (dim k : ℕ) (s : LState) :
    (lanczosStep tq H dim k s).iter = s.iter + 1 := by
  unfold lanczosStep stepB maybeResize
  dsimp only
  split <;> rfl

theorem loop_iter_le (tq : List ℝ → List ℝ → ℕ → List ℝ)
    (H : List (ℕ × ℕ × CuC)) (dim k : ℕ) (conv : ℝ) (fuel : ℕ) :
    ∀ s : LState, s.iter ≤ (lanczosLoop tq H dim k conv fuel s).iter := by
  induction fuel with
  | zero => intro s; exact le_refl _
  | succ n ih =>
    intro s
    unfold lanczosLoop
    split
    · exact le_trans (by rw [lanczosStep_iter]; exact Nat.le_succ _) (ih _)
    · exact le_refl _

theorem sNorm_beta_val : ((stepA H8 1 sNorm).d_b.getD 2 czero).x = 4 := by
  norm_num [stepA, sNorm, H8, matvec, zdotc, zaxpy, dznrm2, cuCdiv, cuCmul,
    cuCadd, cuConj, czero, mkC, List.set, List.getD, List.get?, writeSlot,
    List.range_succ, List.range_zero, List.zipWith, List.foldr, List.sum_cons,
    List.sum_nil]
  rw [show (256 : ℝ) = 16 ^ 2 by norm_num,
    Real.sqrt_sq (by norm_num : (0 : ℝ) ≤ 16),
    show (16 : ℝ) = 4 ^ 2 by norm_num,
    Real.sqrt_sq (by norm_num : (0 : ℝ) ≤ 4)]

theorem sNorm_resid_norm : dznrm2 ((stepA H8 1 sNorm).v1) = 16 := by
  norm_num [stepA, sNorm, H8, matvec, zdotc, zaxpy, dznrm2, cuCdiv, cuCmul,
    cuCadd, cuConj, czero, mkC, List.set, List.getD, List.get?, writeSlot,
    List.range_succ, List.range_zero, List.zipWith, List.foldr, List.sum_cons,
    List.sum_nil]
  rw [show (256 : ℝ) = 16 ^ 2 by norm_num,
    Real.sqrt_sq (by norm_num : (0 : ℝ) ≤ 16)]

/-- Claim C1, counterexample.  At the round with iter = 1 and capacity 4 the
current projection has diagonal [3, 5] and zero offdiagonal couplings, so its
eigenvalues are exactly 3 and 5 (witnessed by the characteristic determinant);
the extraction of lines 436-441 nevertheless sorts the entire capacity-length
buffer including the two unused zero slots and returns [0, 0], although 0 is
not an eigenvalue of the projection and the two smallest eigenvalues ascending
are [3, 5]. -/
theorem spectrum_contains_buffer_fill :
    (stepB tqliModel 1 2 sFill).d_ordered = [0, 0] ∧
    tridiagDet 0 [3, 5] [0, 0] = 15 ∧
    tridiagDet 3 [3, 5] [0, 0] = 0 ∧
    tridiagDet 5 [3, 5] [0, 0] = 0 ∧
    ([0, 0] : List ℝ) ≠ [3, 5] := by
  refine ⟨?_, ?_, ?_, ?_, by norm_num⟩
  · norm_num [stepB, sFill, tqliModel, kSmallest, maybeResize,
      List.insertionSort, List.orderedInsert, czero, mkC]
  · norm_num [tridiagDet, tridiagDetGo, List.zip, List.zipWith]
  · norm_num [tridiagDet, tridiagDetGo, List.zip, List.zipWith]
  · norm_num [tridiagDet, tridiagDetGo, List.zip, List.zipWith]

/-- Claim C1, amended.  The returned spectrum is the num_Eig smallest entries,
in ascending order and of length exactly num_Eig, of the entire capacity-length
diagonal buffer handed back by tqli (the iter+1 eigenvalues of the current
projection together with the unused buffer slots), not of the eigenvalues
alone: kSmallest buf k is sorted, has length k, is drawn from buf, and every
element of it is at most every remaining element of buf. -/
theorem spectrum_k_smallest_of_entire_buffer (buf : List ℝ) (k : ℕ)
    (hk : k ≤ buf.length) :
    (kSmallest buf k).length = k ∧
    List.Sorted (fun a b => a ≤ b) (kSmallest buf k) ∧
    (kSmallest buf k ++ (List.insertionSort (fun a b => a ≤ b) buf).drop k).Perm
      buf ∧
    ∀ x ∈ kSmallest buf k,
      ∀ z ∈ (List.insertionSort (fun a b => a ≤ b) buf).drop k, x ≤ z := by
  have hs : List.Sorted (fun a b => a ≤ b)
      (List.insertionSort (fun a b => a ≤ b) buf) :=
    List.sorted_insertionSort _ _
  have hp : (List.insertionSort (fun a b => a ≤ b) buf).Perm buf :=
    List.perm_insertionSort _ _
  have hlen : (List.insertionSort (fun a b => a ≤ b) buf).length = buf.length :=
    hp.length_eq
  refine ⟨?_, ?_, ?_, ?_⟩
  · rw [kSmallest, List.length_take, hlen]
    omega
  · exact List.Pairwise.sublist (List.take_sublist _ _) hs
  · rw [kSmallest, List.take_append_drop]
    exact hp
  · intro x hx z hz
    have hsplit := hs
    rw [← List.take_append_drop k (List.insertionSort (fun a b => a ≤ b) buf)]
      at hsplit
    exact (List.pairwise_append.mp hsplit).2.2 x hx z hz

/-- Claim C1, witness for the amended theorem at the concrete buffer
[2, 1, 3] with k = 2. -/
theorem spectrum_k_smallest_of_entire_buffer_witness :
    (kSmallest [(2 : ℝ), 1, 3] 2).length = 2 ∧
    List.Sorted (fun a b => a ≤ b) (kSmallest [(2 : ℝ), 1, 3] 2) :=
  ⟨(spectrum_k_smallest_of_entire_buffer [2, 1, 3] 2 (by norm_num)).1,
   (spectrum_k_smallest_of_entire_buffer [2, 1, 3] 2 (by norm_num)).2.1⟩

/-- Claim C2.  At the concrete snapshot s2 (dimension 1, operator [[2]],
v0 = v1 = [1], beta_1 = 3) the loop of lines 370-387 produces the vector [7] =
H*v1 + alpha*v1 + beta*v0, adding both correction terms, while the recurrence
the spec states, w = H*v1 - alpha*v1 - beta*v0, gives [-3]; and the vecdiff
kernel of the older variant computes x - a*y + b*z, not the w = x - a*y - b*z
its own header comment documents, as the evaluation at x = y = 0, b = 1,
z = [1] shows. -/
theorem residual_terms_added_not_subtracted :
    (stepA H2 1 s2).v1 = [mkC 7 0] ∧
    specResidualVec H2 1 s2 = [mkC (-3) 0] ∧
    (stepA H2 1 s2).v1 ≠ specResidualVec H2 1 s2 ∧
    vecdiff [czero] czero [czero] (mkC 1 0) [mkC 1 0] = [mkC 1 0] ∧
    vecdiffStated [czero] czero [czero] (mkC 1 0) [mkC 1 0] = [mkC (-1) 0] := by
  have h1 : (stepA H2 1 s2).v1 = [mkC 7 0] := by
    norm_num [stepA, s2, H2, matvec, zdotc, zaxpy, cuCdiv, cuCmul, cuCadd,
      cuConj, czero, mkC, List.set, List.getD, List.get?, writeSlot,
      List.range_succ, List.range_zero, List.zipWith, List.foldr]
  have h2 : specResidualVec H2 1 s2 = [mkC (-3) 0] := by
    norm_num [specResidualVec, s2, H2, matvec, zdotc, zaxpy, cuCdiv, cuCmul,
      cuCadd, cuCsub, cuConj, czero, mkC, List.getD, List.get?,
      List.range_succ, List.range_zero, List.zipWith, List.foldr, List.zip]
  refine ⟨h1, h2, ?_, ?_, ?_⟩
  · rw [h1, h2]
    norm_num [mkC, CuC.mk.injEq]
  · norm_num [vecdiff, cuCsub, cuCmul, czero, mkC, List.zipWith, List.zip]
  · norm_num [vecdiffStated, cuCsub, cuCmul, czero, mkC, List.zipWith, List.zip]

/-- Claim C3.  At the concrete snapshot sNorm the residual vector the round
computes is [16], whose Euclidean norm (the value cublasDznrm2 returns) is 16,
but the coefficient the code stores into d_b[iter+1] is
sqrt(Dznrm2 result) = 4: the stored offdiagonal coefficient is the square root
of the Euclidean norm of w, not the norm itself. -/
theorem beta_stored_is_sqrt_of_norm :
    ((stepA H8 1 sNorm).d_b.getD 2 czero).x = 4 ∧
    dznrm2 ((stepA H8 1 sNorm).v1) = 16 ∧
    ((stepA H8 1 sNorm).d_b.getD 2 czero).x ≠ dznrm2 ((stepA H8 1 sNorm).v1) := by
  refine ⟨sNorm_beta_val, sNorm_resid_norm, ?_⟩
  rw [sNorm_beta_val, sNorm_resid_norm]
  norm_num

/-- Claim C4.  For the zero operator on dimension 1 the all-ones starting
vector is an exact eigenvector, and indeed beta_1 = 0 after initialization;
the round that then runs stores beta_2 = 0 as well, yet the loop still
executes (its test compares only gs_Energy and eigtemp and never consults
beta), so the run does not terminate at the breakdown and the normalization
scalar 1/Re(d_b[iter+1]) is computed with denominator exactly 0 in both
places, unguarded. -/
theorem breakdown_unguarded_division :
    ((lanczosInit HZero 1 4 1).d_b.getD 1 czero).x = 0 ∧
    ((stepA HZero 1 (lanczosInit HZero 1 4 1)).d_b.getD 2 czero).x = 0 ∧
    (lanczosLoop tqliModel HZero 1 1 (1 / 2) 1 (lanczosInit HZero 1 4 1)).iter
      = 1 := by
  refine ⟨?_, ?_, ?_⟩
  · norm_num [lanczosInit, HZero, matvec, zdotc, zaxpy, dznrm2, cuCmul, cuCadd,
      cuConj, czero, mkC, List.set, List.getD, List.get?, List.range_succ,
      List.range_zero, List.zipWith, List.foldr, List.sum_cons, List.sum_nil,
      List.replicate, Real.sqrt_zero]
  · norm_num [stepA, lanczosInit, HZero, matvec, zdotc, zaxpy, dznrm2, cuCdiv,
      cuCmul, cuCadd, cuConj, czero, mkC, List.set, List.getD, List.get?,
      writeSlot, List.range_succ, List.range_zero, List.zipWith, List.foldr,
      List.sum_cons, List.sum_nil, List.replicate, Real.sqrt_zero]
  · norm_num [lanczosLoop, lanczosStep, stepA, stepB, maybeResize, lanczosInit,
      HZero, tqliModel, kSmallest, matvec, zdotc, zaxpy, dznrm2, cuCdiv, cuCmul,
      cuCadd, cuConj, czero, mkC, List.set, List.getD, List.get?, writeSlot,
      List.range_succ, List.range_zero, List.zipWith, List.foldr, List.sum_cons,
      List.sum_nil, List.replicate, List.insertionSort, List.orderedInsert,
      Real.sqrt_zero]

/-- Claim C5, counterexample.  At iteration capacity - 2 (iter = 2 of capacity
4) no growth happens and the state is unchanged, and at iteration
capacity - 1 (iter = 3) growth happens with new capacity 2*old = 8, which is
not 2*old + 1: the trigger index and the new-capacity formula of the claim
both differ from the code. -/
theorem resize_trigger_counterexample :
    maybeResize 1 sCap = sCap ∧
    (sCap.iter : ℤ) = (sCap.maxIter : ℤ) - 2 ∧
    (maybeResize 1 sCap3).maxIter = 2 * sCap3.maxIter ∧
    (maybeResize 1 sCap3).maxIter ≠ 2 * sCap3.maxIter + 1 := by
  refine ⟨maybeResize_id 1 sCap (by norm_num [sCap]), by norm_num [sCap],
    ?_, ?_⟩
  · rw [maybeResize_grow 1 sCap3 (by norm_num [sCap3, sCap])]
  · rw [maybeResize_grow 1 sCap3 (by norm_num [sCap3, sCap])]
    norm_num [sCap3, sCap]

/-- Claim C5, amended.  Buffer growth is triggered exactly when the iteration
index reaches capacity - 1, and the new capacity equals 2*oldCapacity, applied
uniformly to the alpha and beta coefficient arrays, the diagonal and
offdiagonal arrays, and the Krylov basis store (whose new length is
2*oldCapacity*dim), at the end of the round. -/
theorem resize_policy (dim : ℕ) (s : LState) :
    ((s.iter : ℤ) ≠ (s.maxIter : ℤ) - 1 → maybeResize dim s = s) ∧
    ((s.iter : ℤ) = (s.maxIter : ℤ) - 1 →
      (maybeResize dim s).maxIter = 2 * s.maxIter ∧
      (maybeResize dim s).d_a.length = 2 * s.maxIter ∧
      (maybeResize dim s).d_b.length = 2 * s.maxIter ∧
      (maybeResize dim s).d_diag.length = 2 * s.maxIter ∧
      (maybeResize dim s).d_offdia.length = 2 * s.maxIter ∧
      (maybeResize dim s).lanczvec.length = 2 * s.maxIter * dim) := by
  constructor
  · exact maybeResize_id dim s
  · intro h
    rw [maybeResize_grow dim s h]
    exact ⟨rfl, resizeList_length _ _ _, resizeList_length _ _ _,
      resizeList_length _ _ _, resizeList_length _ _ _, resizeList_length _ _ _⟩

/-- Claim C5, witness for the amended theorem: at iter = 3 of capacity 4 the
coefficient buffer really is grown to length 8. -/
theorem resize_policy_witness :
    (maybeResize 1 sCap3).d_a.length = 2 * sCap3.maxIter :=
  ((resize_policy 1 sCap3).2 (by norm_num [sCap3, sCap])).2.1

/-- Claim C6.  Whether or not growth triggers, the first oldCapacity entries of
the alpha and beta coefficient arrays and of the diagonal and offdiagonal
arrays, and the first oldCapacity*dim entries of the flat Krylov-vector store,
are unchanged by the resize step: growth is append-only and never drops or
reorders an existing element. -/
theorem growth_keeps_every_element (dim : ℕ) (s : LState)
    (ha : s.d_a.length = s.maxIter) (hb : s.d_b.length = s.maxIter)
    (hd : s.d_diag.length = s.maxIter) (ho : s.d_offdia.length = s.maxIter)
    (hl : s.lanczvec.length = s.maxIter * dim) :
    (maybeResize dim s).d_a.take s.maxIter = s.d_a ∧
    (maybeResize dim s).d_b.take s.maxIter = s.d_b ∧
    (maybeResize dim s).d_diag.take s.maxIter = s.d_diag ∧
    (maybeResize dim s).d_offdia.take s.maxIter = s.d_offdia ∧
    (maybeResize dim s).lanczvec.take (s.maxIter * dim) = s.lanczvec := by
  by_cases h : (s.iter : ℤ) = (s.maxIter : ℤ) - 1
  · rw [maybeResize_grow dim s h]
    refine ⟨?_, ?_, ?_, ?_, ?_⟩
    · rw [← ha]
      exact resizeList_keep _ _ _ (by omega)
    · rw [← hb]
      exact resizeList_keep _ _ _ (by omega)
    · rw [← hd]
      exact resizeList_keep _ _ _ (by omega)
    · rw [← ho]
      exact resizeList_keep _ _ _ (by omega)
    · rw [← hl]
      exact resizeList_keep _ _ _
        (by rw [hl, two_mul, Nat.add_mul]; omega)
  · rw [maybeResize_id dim s h]
    refine ⟨?_, ?_, ?_, ?_, ?_⟩
    · rw [← ha, List.take_length]
    · rw [← hb, List.take_length]
    · rw [← hd, List.take_length]
    · rw [← ho, List.take_length]
    · rw [← hl, List.take_length]

/-- Claim C6, witness at a filled capacity-2 state on dimension 1 whose resize
test fires. -/
theorem growth_keeps_every_element_witness :
    (maybeResize 1 sGrow).d_a.take sGrow.maxIter = sGrow.d_a ∧
    (maybeResize 1 sGrow).lanczvec.take (sGrow.maxIter * 1) = sGrow.lanczvec :=
  ⟨(growth_keeps_every_element 1 sGrow (by norm_num [sGrow])
      (by norm_num [sGrow]) (by norm_num [sGrow]) (by norm_num [sGrow])
      (by norm_num [sGrow])).1,
   (growth_keeps_every_element 1 sGrow (by norm_num [sGrow])
      (by norm_num [sGrow]) (by norm_num [sGrow]) (by norm_num [sGrow])
      (by norm_num [sGrow])).2.2.2.2⟩

/-- Claim C7, counterexample.  For an input whose sparse data references
column index 5 while the supplied dimension and vector length are 1 (the
operator data describes a larger matrix than the vectors), the call is not
rejected: with conv_req = 1/2 a full Lanczos round executes and a length-1
spectrum is produced.  No DimensionMismatch failure path exists anywhere in
the routine. -/
theorem mismatched_operator_not_rejected :
    (lanczosLoop tqliModel HBad 1 1 (1 / 2) 1 (lanczosInit HBad 1 4 1)).iter
      = 1 ∧
    (lanczosLoop tqliModel HBad 1 1 (1 / 2) 1
        (lanczosInit HBad 1 4 1)).d_ordered.length = 1 := by
  constructor <;>
    norm_num [lanczosLoop, lanczosStep, stepA, stepB, maybeResize, lanczosInit,
      HBad, tqliModel, kSmallest, matvec, zdotc, zaxpy, dznrm2, cuCdiv, cuCmul,
      cuCadd, cuConj, czero, mkC, List.set, List.getD, List.get?, writeSlot,
      List.range_succ, List.range_zero, List.zipWith, List.foldr, List.sum_cons,
      List.sum_nil, List.replicate, List.insertionSort, List.orderedInsert,
      Real.sqrt_zero]

/-- Claim C7, amended.  The routine performs no dimension validation and has
no DimensionMismatch failure: for every input whatsoever (well-formed or not)
the initialization succeeds, and whenever conv_req < 1 at least one Lanczos
iteration executes. -/
theorem no_dimension_check (tq : List ℝ → List ℝ → ℕ → List ℝ)
    (H : List (ℕ × ℕ × CuC)) (dim M k : ℕ) (conv : ℝ) (fuel : ℕ)
    (hc : conv < 1) (hf : 1 ≤ fuel) :
    1 ≤ (lanczosLoop tq H dim k conv fuel (lanczosInit H dim M k)).iter := by
  obtain ⟨n, rfl⟩ : ∃ n, fuel = n + 1 := ⟨fuel - 1, by omega⟩
  unfold lanczosLoop
  rw [if_pos]
  · have h1 := loop_iter_le tq H dim k conv n
      (lanczosStep tq H dim k (lanczosInit H dim M k))
    rw [lanczosStep_iter, lanczosInit_iter] at h1
    omega
  · rw [lanczosInit_gs, lanczosInit_eigtemp,
      show (1 : ℝ) - 0 = 1 by ring, abs_one]
    exact hc

/-- Claim C7, witness: the amended theorem applied to the mismatched input. -/
theorem no_dimension_check_witness :
    1 ≤ (lanczosLoop tqliModel HBad 1 1 (1 / 2) 1
      (lanczosInit HBad 1 4 1)).iter :=
  no_dimension_check tqliModel HBad 1 4 1 (1 / 2) 1 (by norm_num) (by norm_num)

/-- Claim C8.  The scratch vector y is dead: changing it changes no other
component of the state after a full round.  The vector the round stores and
uses as the next Lanczos vector is the unnormalized residual w itself (under
the in-capacity hypotheses), while the normalization scalar
1/sqrt(Dznrm2 w) is folded only into y.  Consequently the stored basis vectors
need not have norm 1: at the concrete snapshot sNorm the vector copied into the
basis store has norm 0 and the next Lanczos vector has norm 16. -/
theorem normalization_only_feeds_dead_scratch
    (tq : List ℝ → List ℝ → ℕ → List ℝ) (H : List (ℕ × ℕ × CuC))
    (dim k : ℕ) (s : LState) (y2 : Vec)
    (ha : s.iter + 1 < s.d_a.length) (hb : s.iter + 2 < s.d_b.length) :
    stripY (lanczosStep tq H dim k { s with y := y2 }) =
      stripY (lanczosStep tq H dim k s) ∧
    (stepA H dim s).v1 = residualVec H dim s ∧
    (stepA H dim s).y =
      zaxpy (mkC (1 / Real.sqrt (dznrm2 (residualVec H dim s))) 0)
        (residualVec H dim s) s.y ∧
    dznrm2 (readSlot (stepA H8 1 sNorm).lanczvec 1 0) ≠ 1 ∧
    dznrm2 ((stepA H8 1 sNorm).v1) ≠ 1 := by
  have hv : (stepA H dim s).v1 = residualVec H dim s := by
    rw [stepA_v1, setGetD_same _ _ _ _ ha, residualVec]
  refine ⟨?_, hv, ?_, ?_, ?_⟩
  · unfold lanczosStep stepB stepA maybeResize stripY
    dsimp only
    split <;> rfl
  · rw [stepA_y, setGetD_same _ _ _ _ hb, hv]
    rfl
  · rw [stepA_lanczvec]
    norm_num [sNorm, readSlot, writeSlot, dznrm2, czero, Real.sqrt_zero]
  · rw [sNorm_resid_norm]
    norm_num

/-- Claim C8, witness at the concrete snapshot sNorm with scratch vector
replaced by the empty vector. -/
theorem normalization_only_feeds_dead_scratch_witness :
    stripY (lanczosStep tqliModel H8 1 1 { sNorm with y := [] }) =
      stripY (lanczosStep tqliModel H8 1 1 sNorm) ∧
    (stepA H8 1 sNorm).v1 = residualVec H8 1 sNorm :=
  ⟨(normalization_only_feeds_dead_scratch tqliModel H8 1 1 sNorm []
      (by norm_num [sNorm]) (by norm_num [sNorm])).1,
   (normalization_only_feeds_dead_scratch tqliModel H8 1 1 sNorm []
      (by norm_num [sNorm]) (by norm_num [sNorm])).2.1⟩

/-- Claim C9, counterexample.  For the operator -6 times the identity on
dimension 2 (capacity 4, num_Eig 1, conv_req 1/2), the first round stores
alpha_1 = -432, the first tqli call sees the diagonal [0, -432] (offdiagonal
zero, so the spec-modelled tqli returns it unchanged), and the whole buffer is
then sorted to [-432, 0, 0, 0]; the round is reached in a real run since the
loop test still holds.  The second round therefore hands tqli a diagonal array
whose first entry is -432, not 0: the first-position-zero property is not an
invariant of every iteration. -/
theorem later_round_first_diag_entry_nonzero :
    (stepA HNeg 2 s9b).d_diag.getD 0 0 = -432 ∧
    ((-432 : ℝ)) ≠ 0 ∧
    |s9b.gs_Energy - s9b.eigtemp| > (1 / 2 : ℝ) := by
  have hv1 : s9a.v1 = [mkC 6 0, mkC 6 0] := by
    rw [s9a, lanczosInit_v1]
    norm_num [HNeg, matvec, zdotc, zaxpy, cuCmul, cuCadd, cuConj, czero, mkC,
      List.range_succ, List.range_zero, List.zipWith, List.foldr,
      List.replicate]
  have hdot : zdotc s9a.v1 (matvec HNeg 2 s9a.v1) = mkC (-432) 0 := by
    rw [hv1]
    norm_num [HNeg, matvec, zdotc, cuCmul, cuCadd, cuConj, czero, mkC,
      List.range_succ, List.range_zero, List.zipWith, List.foldr]
  have hAdiag : (stepA HNeg 2 s9a).d_diag = [0, -432, 0, 0] := by
    rw [stepA_d_diag, hdot]
    rw [show s9a.iter = 0 from rfl, show s9a.d_diag = [0, 0, 0, 0] from rfl]
    rw [setGetD_same _ _ _ _ (by rw [show s9a.d_a.length = 4 from rfl]; omega)]
    norm_num [mkC, List.set]
  have hAord : (stepA HNeg 2 s9a).d_ordered = [0] := by
    rw [stepA_d_ordered, show s9a.d_ordered = [0] from rfl]
  have hsb : s9b = { (stepA HNeg 2 s9a) with
      d_diag := List.insertionSort (fun a b => a ≤ b)
        (tqliModel (stepA HNeg 2 s9a).d_diag (stepA HNeg 2 s9a).d_offdia
          ((stepA HNeg 2 s9a).iter + 1))
      d_ordered := kSmallest (tqliModel (stepA HNeg 2 s9a).d_diag
          (stepA HNeg 2 s9a).d_offdia ((stepA HNeg 2 s9a).iter + 1)) 1 ++
        (stepA HNeg 2 s9a).d_ordered.drop 1
      gs_Energy := (kSmallest (tqliModel (stepA HNeg 2 s9a).d_diag
          (stepA HNeg 2 s9a).d_offdia ((stepA HNeg 2 s9a).iter + 1)) 1 ++
        (stepA HNeg 2 s9a).d_ordered.drop 1).getD 0 0
      orderedPtrIdx := 0 } := by
    rw [s9b, lanczosStep]
    exact stepB_eq_of_no_resize _ _ _ _
      (by rw [stepA_iter, stepA_maxIter, show s9a.iter = 0 from rfl,
        show s9a.maxIter = 4 from rfl]; norm_num)
  have hgs : s9b.gs_Energy = -432 := by
    rw [hsb]
    show (kSmallest _ 1 ++ _).getD 0 0 = -432
    rw [kSmallest, tqliModel, hAdiag, hAord]
    norm_num [List.insertionSort, List.orderedInsert]
  have heig : s9b.eigtemp = 0 := by
    rw [hsb]
    show (stepA HNeg 2 s9a).eigtemp = 0
    rw [stepA_eigtemp, show s9a.d_ordered = [0] from rfl,
      show s9a.orderedPtrIdx = 0 from rfl]
    rfl
  have hdd : s9b.d_diag = [-432, 0, 0, 0] := by
    rw [hsb]
    show List.insertionSort _ _ = _
    rw [tqliModel, hAdiag]
    norm_num [List.insertionSort, List.orderedInsert]
  refine ⟨?_, by norm_num, by rw [hgs, heig]; norm_num⟩
  rw [stepA_d_diag, setGetD_other _ _ _ _ _ (by omega), hdd]
  rfl

/-- Claim C9, amended.  The loop writes d_diag only at index iter with
iter at least 1, so the first slot is never assigned from alpha_0; the first
round of any run hands tqli a diagonal whose first entry is 0 regardless of the
operator; and a round consults the tridiagonal solver only at size iter + 1
(two solvers that agree there produce identical rounds).  In later rounds the
first entry is the head of the previously sorted buffer and need not be 0. -/
theorem diag_head_zero_only_first_round (tq : List ℝ → List ℝ → ℕ → List ℝ)
    (H : List (ℕ × ℕ × CuC)) (dim M k : ℕ) (s : LState) :
    (stepA H dim s).d_diag.getD 0 0 = s.d_diag.getD 0 0 ∧
    (stepA H dim (lanczosInit H dim M k)).d_diag.getD 0 0 = 0 ∧
    ∀ tq2 : List ℝ → List ℝ → ℕ → List ℝ,
      tq s.d_diag s.d_offdia (s.iter + 1) =
        tq2 s.d_diag s.d_offdia (s.iter + 1) →
      stepB tq dim k s = stepB tq2 dim k s := by
  refine ⟨?_, ?_, ?_⟩
  · rw [stepA_d_diag]
    exact setGetD_other _ _ _ _ _ (by omega)
  · rw [stepA_d_diag, setGetD_other _ _ _ _ _ (by omega), lanczosInit_d_diag]
    cases M <;> simp
  · intro tq2 h
    unfold stepB
    rw [h]

/-- Claim C9, witness for the amended theorem: two solvers agreeing at the
handed size produce the same round at a concrete state. -/
theorem diag_head_zero_only_first_round_witness :
    stepB tqliModel 1 1 sCap = stepB (fun d _ _ => d) 1 1 sCap :=
  (diag_head_zero_only_first_round tqliModel HZero 1 4 1 sCap).2.2
    (fun d _ _ => d) rfl

/-- Claim C10.  When conv_req is at least 1, the initial loop test
fabs(1 - 0) > conv_req fails, the loop body executes zero times for any fuel,
and the routine returns the zero-filled d_ordered of length num_Eig,
independent of the operator, its dimension and the capacity. -/
theorem high_tolerance_skips_loop (tq : List ℝ → List ℝ → ℕ → List ℝ)
    (H : List (ℕ × ℕ × CuC)) (dim M k : ℕ) (conv : ℝ) (fuel : ℕ)
    (h : 1 ≤ conv) :
    lanczosLoop tq H dim k conv fuel (lanczosInit H dim M k) =
      lanczosInit H dim M k ∧
    (lanczosInit H dim M k).d_ordered = List.replicate k 0 := by
  refine ⟨?_, rfl⟩
  cases fuel with
  | zero => rfl
  | succ n =>
    unfold lanczosLoop
    rw [if_neg]
    rw [lanczosInit_gs, lanczosInit_eigtemp,
      show (1 : ℝ) - 0 = 1 by ring, abs_one]
    exact not_lt.mpr h

/-- Claim C10, witness at conv_req = 1 with the zero operator. -/
theorem high_tolerance_skips_loop_witness :
    lanczosLoop tqliModel HZero 1 1 1 5 (lanczosInit HZero 1 4 1) =
      lanczosInit HZero 1 4 1 ∧
    (lanczosInit HZero 1 4 1).d_ordered = List.replicate 1 0 :=
  high_tolerance_skips_loop tqliModel HZero 1 4 1 1 5 (by norm_num)

end SpinGPU
